import Mathlib

/-!
Shallow embedding of `src/GraphmlNamespace.js` (graphml-canvas).

The registry `document.namespaces` is modelled as an association list from
URI strings to heap indices; `GraphmlNamespace` instances live in a heap
(`List NS`) so that several instances can share the registry, as in the
JavaScript where instances are mutable references.  `console.log` output is
collected in a `log` field.  JavaScript truthiness on registry lookups
(`!namespaces[uri]`) is modelled as `Option.isSome`; assigning `undefined`
to a key is observationally identical to deleting it (every read in the
source is a truthiness test or a `get`), so it is modelled as deletion.
-/

namespace GraphmlCanvas

/-- A JavaScript value passed as a class implementation: `fid` is the
object identity, `name` the function field `.name`, `ctor` the identity of its
`.constructor` (all plain JS functions share `Function` as constructor, so
distinct plain functions have equal `ctor`), `isFunction` records
`typeof v == "function"`. -/
structure JSFun where
  fid : Nat
  name : String
  ctor : Nat
  isFunction : Bool
deriving DecidableEq, Repr

/-- A `GraphmlNamespace` instance: `uri`, the `classList` mapping (an
association list name ↦ class), and the `isScoped` flag. -/
structure NS where
  uri : String
  classList : List (String × JSFun)
  isScoped : Bool
deriving DecidableEq, Repr

/-- Association-list lookup (JS object property read; keys are unique). -/
def alistLookup {α : Type} : List (String × α) → String → Option α
  | [], _ => none
  | (k, v) :: rest, u => if k = u then some v else alistLookup rest u

/-- Association-list write (JS object property assignment). -/
def alistSet {α : Type} : List (String × α) → String → α → List (String × α)
  | [], u, v => [(u, v)]
  | (k, w) :: rest, u, v =>
    if k = u then (u, v) :: rest else (k, w) :: alistSet rest u v

/-- Association-list delete (JS `delete obj[key]`). -/
def alistDel {α : Type} : List (String × α) → String → List (String × α)
  | [], _ => []
  | (k, w) :: rest, u =>
    if k = u then alistDel rest u else (k, w) :: alistDel rest u

/-- Global document state: the registry `document.namespaces` (URI ↦ heap
index), the heap of `GraphmlNamespace` instances, and collected
`console.log` messages. -/
structure DocState where
  namespaces : List (String × Nat)
  heap : List NS
  log : List String
deriving DecidableEq, Repr

/-- The empty document: `document.namespaces = {}`, no instances. -/
def DocState.init : DocState := ⟨[], [], []⟩

namespace GraphmlNamespace

/-- `GraphmlNamespace.get(uri)`: pure registry lookup. -/
def get (s : DocState) (uri : String) : Option Nat :=
  alistLookup s.namespaces uri

/-- Tail of `GraphmlNamespace.prototype.scope` after the big conditional:
`if(this.isScoped) console.log(...); return this.isScoped;`. -/
def scopeTail (s : DocState) (i : Nat) : Bool × DocState :=
  match s.heap[i]? with
  | none => (false, s)
  | some this =>
    if this.isScoped then
      (true, { s with
        log := s.log ++ ["Namespace " ++ this.uri ++ ": adding oneself to the current scope"] })
    else (false, s)

/-- `GraphmlNamespace.prototype.descope`: unconditionally logs, deletes the
registry key `this.uri`, clears `isScoped`, returns `true`. -/
def descope (s : DocState) (i : Nat) : Bool × DocState :=
  match s.heap[i]? with
  | none => (true, s)
  | some this =>
    let s1 : DocState :=
      { s with
        log := s.log ++ ["Namespace " ++ this.uri ++ ": removing oneself from current scope"],
        namespaces := alistDel s.namespaces this.uri,
        heap := s.heap.set i { this with isScoped := false } }
    (true, s1)

/-- `GraphmlNamespace.prototype.scope(overwrite)`, translated branch by
branch.  Note the source initialises `willScope = true` and only reassigns
it when `overwrite` is truthy, so the conflicting branch installs `this`
even when `overwrite` is false. -/
def scope (s : DocState) (i : Nat) (overwrite : Bool) : Bool × DocState :=
  match s.heap[i]? with
  | none => (false, s)
  | some this =>
    if this.isScoped then scopeTail s i
    else
      let uri := this.uri
      match alistLookup s.namespaces uri with
      | none =>
        -- Not yet scoped: occupy the slot.
        let s1 : DocState :=
          { s with
            namespaces := alistSet s.namespaces uri i,
            heap := s.heap.set i { this with isScoped := true } }
        scopeTail s1 i
      | some j =>
        if j = i then
          -- Already scoped (registry holds this very instance): early return.
          let s1 : DocState :=
            { s with
              log := s.log ++ ["Namespace " ++ uri ++ ": already scoped"],
              heap := s.heap.set i { this with isScoped := true } }
          (true, s1)
        else
          -- Slot held by a different instance.
          let s1 : DocState :=
            { s with
              log := s.log ++
                ["Namespace: existing namespace already found scoped under the schema " ++ uri] }
          let p : Bool × DocState := if overwrite then descope s1 j else (true, s1)
          let willScope := p.1
          let s2 := p.2
          if willScope then
            match s2.heap[i]? with
            | some cur =>
              let s3 : DocState :=
                { s2 with
                  namespaces := alistSet s2.namespaces uri i,
                  heap := s2.heap.set i { cur with isScoped := true } }
              scopeTail s3 i
            | none => scopeTail s2 i
          else scopeTail s2 i

/-- The `GraphmlNamespace(uri, attributes)` constructor (the class-loader
trigger is handled by the loader model; registry claims use construction
without a class list).  Returns the heap index of the new instance. -/
def construct (s : DocState) (uri : String) (unscoped : Bool) : Nat × DocState :=
  let i := s.heap.length
  let s1 : DocState := { s with heap := s.heap ++ [⟨uri, [], false⟩] }
  if unscoped then (i, s1)
  else
    match get s1 uri with
    | none => (i, (scope s1 i false).2)
    | some _ =>
      (i, { s1 with
        log := s1.log ++
          ["Namespace: not allowed to scope a new namespace that already is defined within the same scope - " ++ uri] })

/-- `GraphmlNamespace.prototype.setNamespaceURI(uri)` (rename). -/
def setNamespaceURI (s : DocState) (i : Nat) (uri : String) : Bool × DocState :=
  match s.heap[i]? with
  | none => (false, s)
  | some this =>
    let oldURI := this.uri
    if oldURI = uri then (true, s)
    else
      if this.isScoped then
        match alistLookup s.namespaces oldURI with
        | some _ =>
          (false, { s with
            log := s.log ++
              ["GraphmlNamespace " ++ oldURI ++ ": not allowed to change a namespace URI while that namespace is scoped"] })
        | none =>
          -- `namespaces[uri] = namespaces[oldURI]` assigns `undefined` here
          -- (the old key is absent), observationally a deletion; then
          -- `delete namespaces[oldURI]`.
          (true, { s with
            namespaces := alistDel (alistDel s.namespaces uri) oldURI,
            heap := s.heap.set i { this with uri := uri } })
      else
        (true, { s with heap := s.heap.set i { this with uri := uri } })

/-- The capability name `setSpecificClass` resolves: `name = name ||
newClass.name` (both `null` and `""` are falsy). -/
def regName (name : Option String) (f : JSFun) : String :=
  match name with
  | some n => if n = "" then f.name else n
  | none => f.name

/-- `GraphmlNamespace.prototype.setSpecificClass(name, newClass)`. -/
def setSpecificClass (s : DocState) (i : Nat) (name : Option String)
    (newClass : Option JSFun) : Bool × DocState :=
  match s.heap[i]? with
  | none => (false, s)
  | some this =>
    match newClass with
    | none => (false, s)
    | some f =>
      if !f.isFunction then (false, s)
      else
        let nm := regName name f
        if nm = "" then (false, s)
        else
          match alistLookup this.classList nm with
          | some oldClass =>
            if oldClass.ctor = f.ctor then (true, s)
            else if this.isScoped && (alistLookup s.namespaces this.uri).isSome then
              (false, { s with
                log := s.log ++
                  ["GraphmlNamespace " ++ this.uri ++ ": not allowed to change class " ++ nm ++ " while scoped"] })
            else
              (true, { s with
                heap := s.heap.set i { this with classList := alistSet this.classList nm f } })
          | none =>
            (true, { s with
              heap := s.heap.set i { this with classList := alistSet this.classList nm f } })

end GraphmlNamespace

/-- One registry operation, for quantifying over operation sequences. -/
inductive Op where
  | construct (uri : String) (unscoped : Bool)
  | scope (i : Nat) (overwrite : Bool)
  | descope (i : Nat)
  | rename (i : Nat) (uri : String)
deriving DecidableEq, Repr

/-- Run a single operation, keeping the state. -/
def runOp (s : DocState) : Op → DocState
  | .construct u un => (GraphmlNamespace.construct s u un).2
  | .scope i ov => (GraphmlNamespace.scope s i ov).2
  | .descope i => (GraphmlNamespace.descope s i).2
  | .rename i u => (GraphmlNamespace.setNamespaceURI s i u).2

/-- Run an operation sequence from the empty document. -/
def runOps (ops : List Op) : DocState := ops.foldl runOp DocState.init

/-! ## The class loader (`GraphmlNamespaceClassLoader`)

The queue `loaderList`, the set of outstanding `<script>` fetches
(`inFlight`, in creation order), and a chronological trace of observable
loader events.  External nondeterminism (when a fetch completes, whether it
succeeds, what `document.currentScript` is, what globals a fetched script
defines) is supplied by the events; `window` is the table of globals the
fetched scripts define. -/

/-- JS `String.prototype.slice` effective index: negative counts from the
end, clamped to `[0, len]`. -/
def jsEffIndex (len : Nat) (i : Int) : Nat :=
  if i < 0 then ((len : Int) + i).toNat else min i.toNat len

/-- JS `s.slice(b, e)` on strings (empty when the effective start is not
before the effective end). -/
def jsSlice (s : String) (b e : Int) : String :=
  ⟨(s.data.take (jsEffIndex s.data.length e)).drop (jsEffIndex s.data.length b)⟩

/-- JS `lastIndexOf` on a character list: the index of the last occurrence,
`-1` when the character is absent. -/
def lastIndexOfCharList : List Char → Char → Int
  | [], _ => -1
  | x :: rest, c =>
    let r := lastIndexOfCharList rest c
    if r = -1 then (if x = c then 0 else -1) else r + 1

/-- JS `s.lastIndexOf(c)` for a single character: `-1` when absent. -/
def lastIndexOfChar (s : String) (c : Char) : Int :=
  lastIndexOfCharList s.data c

/-- The class name the loader derives from the script `src`:
`className.slice(className.lastIndexOf("/")+1, className.length-3)`
(the source comment reads `.../File.js --> File`: exactly the last three
characters are dropped). -/
def derivedClassName (full : String) : String :=
  jsSlice full (lastIndexOfChar full '/' + 1) ((full.data.length : Int) - 3)

/-- A pending `<script>` fetch: the full resolved `src` and the optional
target namespace captured by the callbacks. -/
structure FetchJob where
  src : String
  ns : Option Nat
deriving DecidableEq, Repr

/-- A loader task (`entry` in `GraphmlNamespaceClassLoader.load`). -/
structure Task where
  ns : Option Nat
  classList : List String
  folder : String
deriving DecidableEq, Repr

/-- Observable loader events, recorded in order: a fetch being dispatched,
a fetch completing (with its outcome), and a registration attempt (the
`onload` branch that runs `setSpecificClass` for a target namespace). -/
inductive LEvt where
  | dispatch (src : String)
  | fetchDone (src : String) (success : Bool)
  | regAttempt (src : String)
deriving DecidableEq, Repr

/-- Whole-system state: document (registry + namespace heap), the `window`
globals fetched scripts provide, the loader queue, outstanding fetches and
the event trace. -/
structure LSys where
  doc : DocState
  window : List (String × JSFun)
  loaderList : List Task
  inFlight : List FetchJob
  trace : List LEvt
deriving DecidableEq, Repr

namespace GraphmlNamespaceClassLoader

/-- `GraphmlNamespaceClassLoader.loader(src, namespace, folder)`: create a
script element with `src = folder + src`, install callbacks, append it —
i.e. start a fetch. -/
def loader (sys : LSys) (src : String) (ns : Option Nat) (folder : String) : LSys :=
  let full := folder ++ src
  { sys with
    inFlight := sys.inFlight ++ [⟨full, ns⟩],
    trace := sys.trace ++ [.dispatch full] }

/-- `GraphmlNamespaceClassLoader.loadNextClass()`: take the front task,
shift its first identifier and start fetching it; if the list of the task is
now empty, shift the task off the queue.  (The list of the front task is never
empty: tasks are enqueued only with a non-empty `classList` and are removed
as soon as their list drains.) -/
def loadNextClass (sys : LSys) : LSys :=
  match sys.loaderList with
  | [] => sys
  | entry :: restTasks =>
    match entry.classList with
    | [] => sys
    | c :: rest =>
      let sys1 := loader sys c entry.ns entry.folder
      if rest.isEmpty then { sys1 with loaderList := restTasks }
      else { sys1 with loaderList := { entry with classList := rest } :: restTasks }

/-- `GraphmlNamespaceClassLoader.load(classArray, namespace)`: build the
entry (capturing the folder of the `src` of `document.currentScript`), push it,
and fire `loadNextClass` only when the queue was empty before the push. -/
def load (sys : LSys) (classArray : List String) (ns : Option Nat)
    (currentSrc : String) : LSys :=
  let folder := jsSlice currentSrc 0 (lastIndexOfChar currentSrc '/' + 1)
  let entry : Task := ⟨ns, classArray, folder⟩
  let len := sys.loaderList.length
  let sys1 : LSys := { sys with loaderList := sys.loaderList ++ [entry] }
  if len = 0 then loadNextClass sys1 else sys1

/-- The `GraphmlNamespaceClassLoader(classArray, namespace)` entry point:
only calls `load` when the array is non-empty. -/
def enqueue (sys : LSys) (classArray : List String) (ns : Option Nat)
    (currentSrc : String) : LSys :=
  if classArray.isEmpty then sys else load sys classArray ns currentSrc

/-- Completion of the `k`-th outstanding fetch.  `script.onload` clears the
handlers, derives the class name from the script `src`, registers
`window[className]` into the target namespace when one was supplied (name
passed as `null`, so the own `.name` of the class is used), then calls
`loadNextClass`; `script.onerror` clears the handlers and goes straight to
`loadNextClass`. -/
def fetchComplete (sys : LSys) (k : Nat) (success : Bool) : LSys :=
  match sys.inFlight[k]? with
  | none => sys
  | some job =>
    let sys1 : LSys :=
      { sys with
        inFlight := sys.inFlight.eraseIdx k,
        trace := sys.trace ++ [.fetchDone job.src success] }
    if success then
      let sys2 : LSys :=
        match job.ns with
        | some i =>
          let className := derivedClassName job.src
          { sys1 with
            trace := sys1.trace ++ [.regAttempt job.src],
            doc := (GraphmlNamespace.setSpecificClass sys1.doc i none
              (alistLookup sys1.window className)).2 }
        | none => sys1
      loadNextClass sys2
    else
      loadNextClass sys1

end GraphmlNamespaceClassLoader

/-- External events driving the loader: a caller enqueues a class list for
a namespace (with the ambient `document.currentScript` src), or an
outstanding fetch (index `k` in creation order) completes. -/
inductive LoadEv where
  | enqueue (classArray : List String) (ns : Option Nat) (currentSrc : String)
  | complete (k : Nat) (success : Bool)
deriving DecidableEq, Repr

/-- One step of the loader system. -/
def lstep (sys : LSys) : LoadEv → LSys
  | .enqueue ca ns src => GraphmlNamespaceClassLoader.enqueue sys ca ns src
  | .complete k succ => GraphmlNamespaceClassLoader.fetchComplete sys k succ

/-- Run a sequence of loader events. -/
def lrun (init : LSys) (evs : List LoadEv) : LSys := evs.foldl lstep init

/-! ## General lemmas about the embedding -/

theorem alistLookup_alistSet_self {α : Type} (r : List (String × α)) (u : String) (v : α) :
    alistLookup (alistSet r u v) u = some v := by
  induction r with
  | nil => simp [alistLookup, alistSet]
  | cons p rest ih =>
    obtain ⟨k, w⟩ := p
    by_cases h : k = u <;> simp [alistLookup, alistSet, h, ih]

theorem alistLookup_alistSet_ne {α : Type} (r : List (String × α)) (u k : String) (v : α)
    (h : k ≠ u) : alistLookup (alistSet r u v) k = alistLookup r k := by
  induction r with
  | nil =>
    simp only [alistSet, alistLookup, ite_eq_right_iff]
    exact fun hh => absurd hh.symm h
  | cons p rest ih =>
    obtain ⟨k', w⟩ := p
    by_cases h' : k' = u
    · subst h'
      simp [alistLookup, alistSet, Ne.symm h]
    · simp [alistLookup, alistSet, h', ih]

theorem alistLookup_alistDel_self {α : Type} (r : List (String × α)) (u : String) :
    alistLookup (alistDel r u) u = none := by
  induction r with
  | nil => simp [alistLookup, alistDel]
  | cons p rest ih =>
    obtain ⟨k, w⟩ := p
    by_cases h : k = u <;> simp [alistLookup, alistDel, h, ih]

theorem string_nil_append (s : String) : "" ++ s = s := by
  cases s
  rfl

/-- `loadNextClass` never touches the document (registry, heap, log): it
only moves queue entries and starts fetches. -/
theorem loadNextClass_doc_eq (sys : LSys) :
    (GraphmlNamespaceClassLoader.loadNextClass sys).doc = sys.doc := by
  obtain ⟨doc, w, ll, inf, tr⟩ := sys
  rcases ll with _ | ⟨⟨tns, cl, folder⟩, rest⟩
  · rfl
  · rcases cl with _ | ⟨c, cs⟩
    · rfl
    · by_cases h : cs.isEmpty <;>
        simp [GraphmlNamespaceClassLoader.loadNextClass, GraphmlNamespaceClassLoader.loader, h]

/-- `loadNextClass` never touches the `window` globals either. -/
theorem loadNextClass_window_eq (sys : LSys) :
    (GraphmlNamespaceClassLoader.loadNextClass sys).window = sys.window := by
  obtain ⟨doc, w, ll, inf, tr⟩ := sys
  rcases ll with _ | ⟨⟨tns, cl, folder⟩, rest⟩
  · rfl
  · rcases cl with _ | ⟨c, cs⟩
    · rfl
    · by_cases h : cs.isEmpty <;>
        simp [GraphmlNamespaceClassLoader.loadNextClass, GraphmlNamespaceClassLoader.loader, h]

/-- If `setSpecificClass` is asked to store under a resolved name other
than `k` (or rejects the call), the entry of the target instance under `k`
is unchanged, and the instance stays at its heap slot. -/
theorem setSpecificClass_preserves_absent (s : DocState) (i : Nat) (ns : NS) (k : String)
    (name : Option String) (cls : Option JSFun)
    (hns : s.heap[i]? = some ns)
    (hk : ∀ f, cls = some f → GraphmlNamespace.regName name f ≠ k) :
    ∃ ns', (GraphmlNamespace.setSpecificClass s i name cls).2.heap[i]? = some ns' ∧
      alistLookup ns'.classList k = alistLookup ns.classList k := by
  have hlt : i < s.heap.length := (List.getElem?_eq_some.mp hns).1
  rcases cls with _ | f
  · exact ⟨ns, by simp [GraphmlNamespace.setSpecificClass, hns], rfl⟩
  · have hne : GraphmlNamespace.regName name f ≠ k := hk f rfl
    by_cases hfun : f.isFunction
    · by_cases hnm : GraphmlNamespace.regName name f = ""
      · exact ⟨ns, by simp [GraphmlNamespace.setSpecificClass, hns, hfun, hnm], rfl⟩
      · rcases hold : alistLookup ns.classList (GraphmlNamespace.regName name f) with _ | oldClass
        · refine ⟨{ ns with classList := alistSet ns.classList (GraphmlNamespace.regName name f) f },
            ?_, alistLookup_alistSet_ne _ _ _ _ (Ne.symm hne)⟩
          simp [GraphmlNamespace.setSpecificClass, hns, hfun, hnm, hold,
            List.getElem?_set_eq_of_lt _ hlt]
        · by_cases hctor : oldClass.ctor = f.ctor
          · exact ⟨ns,
              by simp [GraphmlNamespace.setSpecificClass, hns, hfun, hnm, hold, hctor], rfl⟩
          · by_cases hsc : ns.isScoped && (alistLookup s.namespaces ns.uri).isSome
            · exact ⟨ns,
                by simp [GraphmlNamespace.setSpecificClass, hns, hfun, hnm, hold, hctor, hsc], rfl⟩
            · refine ⟨{ ns with classList := alistSet ns.classList (GraphmlNamespace.regName name f) f },
                ?_, alistLookup_alistSet_ne _ _ _ _ (Ne.symm hne)⟩
              simp [GraphmlNamespace.setSpecificClass, hns, hfun, hnm, hold, hctor, hsc,
                List.getElem?_set_eq_of_lt _ hlt]
    · exact ⟨ns, by simp [GraphmlNamespace.setSpecificClass, hns, hfun], rfl⟩

/-! ## Concrete fixture states -/

/-- Document after constructing two namespaces with the same URI `"u"`:
the first is scoped and occupies the registry slot, the second was refused
at construction time and is unscoped. -/
def twoSameURI : DocState := runOps [.construct "u" false, .construct "u" false]

/-- `twoSameURI` followed by the second instance calling `scope(false)`. -/
def conflictScoped : DocState :=
  runOps [.construct "u" false, .construct "u" false, .scope 1 false]

/-- A loader system over a document holding two unscoped namespaces and an
empty `window`, with nothing queued or in flight. -/
def loaderInit : LSys :=
  ⟨⟨[], [⟨"ns://one", [], false⟩, ⟨"ns://two", [], false⟩], []⟩, [], [], [], []⟩

/-- A plain JS function value (constructor `Function`, identity 1). -/
def fPlain : JSFun := ⟨1, "f", 0, true⟩

/-- A second, distinct plain JS function value (same constructor). -/
def gPlain : JSFun := ⟨2, "g", 0, true⟩

/-- A scoped namespace `"u"` holding capability `X ↦ fPlain`, recognised by
the registry. -/
def scopedWithX : DocState := ⟨[("u", 0)], [⟨"u", [("X", fPlain)], true⟩], []⟩

/-- An unscoped namespace `"u"` holding capability `X ↦ fPlain`. -/
def unscopedWithX : DocState := ⟨[], [⟨"u", [("X", fPlain)], false⟩], []⟩

/-- Document with a single scoped namespace `"ns://demo"`. -/
def demoDoc : DocState := ⟨[("ns://demo", 0)], [⟨"ns://demo", [], true⟩], []⟩

/-- Globals the fetched resources define, under the names `a` and `b` that
the spec expects to be the derived capability names. -/
def demoWindow : List (String × JSFun) :=
  [("a", ⟨1, "a", 0, true⟩), ("b", ⟨2, "b", 0, true⟩)]

/-- The end-to-end run of the spec scenario: enqueue `["a.impl", "b.impl"]`
for `"ns://demo"` and let both fetches succeed. -/
def demoRun : LSys :=
  lrun ⟨demoDoc, demoWindow, [], [], []⟩
    [.enqueue ["a.impl", "b.impl"] (some 0) "", .complete 0 true, .complete 0 true]

/-- Loader run for claim C6: a first task `[A, B, C]`, fetches of `A` and
`B` complete, then (while the fetch of `C` is still outstanding) a second
task `[D]` for another namespace is enqueued. -/
def c6Run : LSys :=
  lrun loaderInit [.enqueue ["A", "B", "C"] (some 0) "",
    .complete 0 true, .complete 0 true, .enqueue ["D"] (some 1) ""]

/-! ## Claims -/

/-- Claim C1 (code bug): the claim says that when the identifier of `N` is
occupied by a different instance, `scope` with `overwrite` false returns
false, leaves the `scoped` flag of `N` false and the registry entry with
the original occupant.  The source initialises `willScope = true` and only
consults `descope` when `overwrite` is truthy, so the conflicting call
instead returns true, marks `N` scoped and replaces the registry entry.
This theorem evaluates the code at the failing input: two instances
constructed with identifier `"u"`, the second calling `scope(false)`. -/
theorem c1_scope_conflict_without_overwrite_overwrites :
    (GraphmlNamespace.scope twoSameURI 1 false).1 = true ∧
    alistLookup (GraphmlNamespace.scope twoSameURI 1 false).2.namespaces "u" = some 1 ∧
    ((GraphmlNamespace.scope twoSameURI 1 false).2.heap[1]?).map NS.isScoped = some true := by
  decide

/-- Claim C2 (code bug): the claimed invariant — at most one instance
`scoped` per identifier, and `scoped` agreeing with the registry — is
violated by the operation sequence `[construct "u", construct "u",
scope 1 false]`: afterwards both instances have `isScoped = true` for
identifier `"u"` while the registry maps `"u"` to instance 1 only, so
instance 0 believes itself scoped while another instance occupies the
slot. -/
theorem c2_two_instances_scoped_for_same_identifier :
    (conflictScoped.heap[0]?).map NS.isScoped = some true ∧
    (conflictScoped.heap[1]?).map NS.isScoped = some true ∧
    alistLookup conflictScoped.namespaces "u" = some 1 := by
  decide

/-- Claim C5 (code bug): the claim says at most one fetch is ever in
flight.  A task is shifted off the queue when its last identifier is
dispatched, not when that fetch completes, so an `enqueue` arriving in
that window finds the queue empty and fires immediately: after enqueuing
the one-identifier task `["A"]` and, before its fetch completes, the task
`["B"]`, two fetches are outstanding simultaneously. -/
theorem c5_two_fetches_in_flight :
    (lrun loaderInit [.enqueue ["A"] (some 0) "h/x.js",
      .enqueue ["B"] (some 1) "h/x.js"]).inFlight =
      [⟨"h/A", some 0⟩, ⟨"h/B", some 1⟩] := by
  decide

/-- Claim C6 (code bug): the claim says every identifier of a first task
`[A, B, C]` completes its registration attempt before any identifier of a
later task is dispatched.  If the second task `[D]` is enqueued after `C`
was dispatched (the first task is then already off the queue) but before
the fetch of `C` completes, `D` is dispatched immediately: the final trace
contains `dispatch D` while the fetch of `C` has neither completed nor had
its registration attempted. -/
theorem c6_second_task_dispatched_before_first_finishes :
    LEvt.dispatch "D" ∈ c6Run.trace ∧ LEvt.regAttempt "C" ∉ c6Run.trace ∧
    ∀ b, LEvt.fetchDone "C" b ∉ c6Run.trace := by
  decide

/-- Claim C3 counterexample: two distinct plain functions share their
constructor (`Function` — modelled as equal `ctor`), so `setSpecificClass`
takes the `oldClass.constructor === newClass.constructor` branch: on a
scoped namespace whose capability `X` holds `fPlain`, registering the
different function value `gPlain` under `X` returns true (the claim says
false), and on an unscoped namespace the same call leaves the state
entirely unchanged — `X` still holds `fPlain` (the claim says it is
replaced). -/
theorem c3_counterexample_same_constructor_accepted :
    (GraphmlNamespace.setSpecificClass scopedWithX 0 (some "X") (some gPlain)).1 = true ∧
    GraphmlNamespace.setSpecificClass unscopedWithX 0 (some "X") (some gPlain)
      = (true, unscopedWithX) := by
  decide

/-- Claim C4 counterexample: the loader slices off exactly the last three
characters of the path (`.../File.js --> File`), not the extension
whatever its length: `"a.impl"` yields lookup name `"a.i"`, not `"a"`.
In the end-to-end spec scenario — resources `["a.impl", "b.impl"]` whose
fetches define globals `a` and `b` — nothing is registered at all, because
the loader looks up `window["a.i"]` and `window["b.i"]`. -/
theorem c4_counterexample_extension_not_stripped :
    derivedClassName "a.impl" = "a.i" ∧ derivedClassName "a.impl" ≠ "a" ∧
    (demoRun.doc.heap[0]?).map NS.classList = some [] := by
  decide

/-- Claim C10 (confirmed): `descope` on instance `i` always returns true,
deletes the registry entry under the identifier of `i` whatever instance
it currently holds (a different occupant `Y` is evicted), clears the
`scoped` flag of `i`, and touches no other heap slot — so the `scoped`
flag of an evicted `Y` stays true. -/
theorem c10_descope_unconditional (s : DocState) (i : Nat) (ns : NS)
    (h : s.heap[i]? = some ns) :
    (GraphmlNamespace.descope s i).1 = true ∧
    alistLookup (GraphmlNamespace.descope s i).2.namespaces ns.uri = none ∧
    (GraphmlNamespace.descope s i).2.heap = s.heap.set i { ns with isScoped := false } := by
  unfold GraphmlNamespace.descope
  rw [h]
  exact ⟨rfl, alistLookup_alistDel_self _ _, rfl⟩

/-- Witness for C10 at a state where the registry maps `"u"` to a
different, scoped instance (index 0): descoping instance 1 deletes the
entry of that occupant while only heap slot 1 changes, so the occupant
keeps `isScoped = true`. -/
theorem c10_descope_unconditional_witness :
    twoSameURI.heap[1]? = some ⟨"u", [], false⟩ ∧
    ((GraphmlNamespace.descope twoSameURI 1).1 = true ∧
      alistLookup (GraphmlNamespace.descope twoSameURI 1).2.namespaces "u" = none ∧
      (GraphmlNamespace.descope twoSameURI 1).2.heap =
        twoSameURI.heap.set 1 ⟨"u", [], false⟩) :=
  ⟨by decide, c10_descope_unconditional twoSameURI 1 ⟨"u", [], false⟩ (by decide)⟩

/-- Claim C8 (confirmed): rename (`setNamespaceURI`) to the unchanged
identifier returns true with no state change at all; and on a scoped
instance whose old identifier is still a registry key, rename to a
different identifier returns false and leaves both the heap (hence the
identifier field of the instance) and the registry unchanged. -/
theorem c8_rename_noop_and_refusal (s : DocState) (i : Nat) (ns : NS)
    (h : s.heap[i]? = some ns) :
    GraphmlNamespace.setNamespaceURI s i ns.uri = (true, s) ∧
    ∀ u, u ≠ ns.uri → ns.isScoped = true →
      (alistLookup s.namespaces ns.uri).isSome = true →
      (GraphmlNamespace.setNamespaceURI s i u).1 = false ∧
      (GraphmlNamespace.setNamespaceURI s i u).2.heap = s.heap ∧
      (GraphmlNamespace.setNamespaceURI s i u).2.namespaces = s.namespaces := by
  constructor
  · simp [GraphmlNamespace.setNamespaceURI, h]
  · intro u hu hsc hreg
    obtain ⟨j, hj⟩ := Option.isSome_iff_exists.mp hreg
    refine ⟨?_, ?_, ?_⟩ <;>
      simp [GraphmlNamespace.setNamespaceURI, h, Ne.symm hu, hsc, hj]

/-- Witness for C8: the scoped namespace `"u"` (still a registry key)
cannot be renamed, and renaming to the identical URI is a no-op. -/
theorem c8_rename_noop_and_refusal_witness :
    scopedWithX.heap[0]? = some ⟨"u", [("X", fPlain)], true⟩ ∧
    (GraphmlNamespace.setNamespaceURI scopedWithX 0 "u" = (true, scopedWithX) ∧
      ∀ u, u ≠ "u" → (true : Bool) = true →
        (alistLookup scopedWithX.namespaces "u").isSome = true →
        (GraphmlNamespace.setNamespaceURI scopedWithX 0 u).1 = false ∧
        (GraphmlNamespace.setNamespaceURI scopedWithX 0 u).2.heap = scopedWithX.heap ∧
        (GraphmlNamespace.setNamespaceURI scopedWithX 0 u).2.namespaces
          = scopedWithX.namespaces) :=
  ⟨by decide,
    c8_rename_noop_and_refusal scopedWithX 0 ⟨"u", [("X", fPlain)], true⟩ (by decide)⟩

/-- Setting at the appended position: `(l ++ [a]).set l.length b = l ++ [b]`. -/
theorem list_set_concat {α : Type} (l : List α) (a b : α) :
    (l ++ [a]).set l.length b = l ++ [b] := by
  induction l with
  | nil => rfl
  | cons x rest ih => simp [List.set, ih]

/-- Lookup of the second-to-last appended element. -/
theorem getElem?_append_pair {α : Type} (l : List α) (a b : α) :
    (l ++ [a, b])[l.length + 1]? = some b := by
  have h := List.getElem?_concat_length (l ++ [a]) b
  simpa [List.append_assoc] using h

/-- `getElem` form of `getElem?_append_pair`. -/
theorem getElem_append_pair {α : Type} (l : List α) (a b : α)
    (hlt : l.length + 1 < (l ++ [a, b]).length) :
    (l ++ [a, b])[l.length + 1] = b := by
  have h := getElem?_append_pair l a b
  rw [List.getElem?_eq_getElem hlt] at h
  exact Option.some.inj h

/-- Evaluation of the constructor when the registry slot for `U` is free:
the new instance occupies the slot and is scoped. -/
theorem construct_free (s : DocState) (U : String)
    (h : alistLookup s.namespaces U = none) :
    GraphmlNamespace.construct s U false =
      (s.heap.length,
        { namespaces := alistSet s.namespaces U s.heap.length,
          heap := s.heap ++ [⟨U, [], true⟩],
          log := s.log ++ ["Namespace " ++ U ++ ": adding oneself to the current scope"] }) := by
  have hcat : (s.heap ++ [(⟨U, [], false⟩ : NS)])[s.heap.length]? = some ⟨U, [], false⟩ :=
    List.getElem?_concat_length _ _
  have hset : (s.heap ++ [(⟨U, [], false⟩ : NS)]).set s.heap.length ⟨U, [], true⟩
      = s.heap ++ [⟨U, [], true⟩] := list_set_concat _ _ _
  have hcat2 : (s.heap ++ [(⟨U, [], true⟩ : NS)])[s.heap.length]? = some ⟨U, [], true⟩ :=
    List.getElem?_concat_length _ _
  simp [GraphmlNamespace.construct, GraphmlNamespace.get, GraphmlNamespace.scope,
    GraphmlNamespace.scopeTail, h, hcat, hset, hcat2]

/-- Evaluation of the constructor when the registry slot for `U` is held:
the new instance is allocated unscoped and the conflict is logged. -/
theorem construct_conflict (s : DocState) (U : String) (j : Nat)
    (h : alistLookup s.namespaces U = some j) :
    GraphmlNamespace.construct s U false =
      (s.heap.length,
        { namespaces := s.namespaces,
          heap := s.heap ++ [⟨U, [], false⟩],
          log := s.log ++
            ["Namespace: not allowed to scope a new namespace that already is defined within the same scope - " ++ U] }) := by
  simp [GraphmlNamespace.construct, GraphmlNamespace.get, h]

/-- Claim C7 (confirmed): for every identifier `U` free in the registry,
constructing a first namespace with `U` and then a second one (not marked
unscoped) leaves the second with `scoped = false`, leaves the registry
lookup of `U` returning the first instance, and logs the conflict message;
construction is a total function, so nothing is thrown. -/
theorem c7_second_construction_refused (s : DocState) (U : String)
    (h : alistLookup s.namespaces U = none) :
    let r1 := GraphmlNamespace.construct s U false
    let r2 := GraphmlNamespace.construct r1.2 U false
    (r2.2.heap[r2.1]?).map NS.isScoped = some false ∧
    GraphmlNamespace.get r2.2 U = some r1.1 ∧
    ("Namespace: not allowed to scope a new namespace that already is defined within the same scope - " ++ U)
      ∈ r2.2.log := by
  have h1 := construct_free s U h
  have h2 := construct_conflict
    (GraphmlNamespace.construct s U false).2 U s.heap.length
    (by rw [h1]; exact alistLookup_alistSet_self _ _ _)
  rw [h1] at h2
  simp only [h1, h2, GraphmlNamespace.get]
  refine ⟨?_, ?_, ?_⟩
  · simp [getElem?_append_pair, getElem_append_pair]
  · exact alistLookup_alistSet_self _ _ _
  · simp

/-- Witness for C7 from the empty document with `U = "ns://demo"`. -/
theorem c7_second_construction_refused_witness :
    alistLookup DocState.init.namespaces "ns://demo" = none ∧
    (let r1 := GraphmlNamespace.construct DocState.init "ns://demo" false
     let r2 := GraphmlNamespace.construct r1.2 "ns://demo" false
     (r2.2.heap[r2.1]?).map NS.isScoped = some false ∧
     GraphmlNamespace.get r2.2 "ns://demo" = some r1.1 ∧
     ("Namespace: not allowed to scope a new namespace that already is defined within the same scope - " ++ "ns://demo")
       ∈ r2.2.log) :=
  ⟨by decide, c7_second_construction_refused DocState.init "ns://demo" (by decide)⟩

/-- A function value with a different constructor identity (for example a
generator function, whose constructor is `GeneratorFunction` rather than
`Function`). -/
def gOtherCtor : JSFun := ⟨3, "g", 1, true⟩

/-- Claim C3 (corrected): overwrite protection is keyed on constructor
metadata, not on function identity.  When the stored and the new
implementation share their constructor (as any two plain functions do),
the call returns true and changes nothing, scoped or not.  Only when the
constructors differ does the claimed behaviour hold: a scoped namespace
still recognised by the registry refuses with false and keeps its mapping,
an unscoped namespace accepts with true and replaces the entry. -/
theorem c3_amended_overwrite_protection (s : DocState) (i : Nat) (ns : NS)
    (nm : String) (f g : JSFun)
    (hns : s.heap[i]? = some ns)
    (hold : alistLookup ns.classList nm = some f)
    (hfun : g.isFunction = true)
    (hnm : nm ≠ "") :
    (f.ctor = g.ctor →
      GraphmlNamespace.setSpecificClass s i (some nm) (some g) = (true, s)) ∧
    (f.ctor ≠ g.ctor → ns.isScoped = true →
      (alistLookup s.namespaces ns.uri).isSome = true →
      (GraphmlNamespace.setSpecificClass s i (some nm) (some g)).1 = false ∧
      (GraphmlNamespace.setSpecificClass s i (some nm) (some g)).2.heap = s.heap) ∧
    (f.ctor ≠ g.ctor → ns.isScoped = false →
      (GraphmlNamespace.setSpecificClass s i (some nm) (some g)).1 = true ∧
      ((GraphmlNamespace.setSpecificClass s i (some nm) (some g)).2.heap[i]?).map
        (fun n => alistLookup n.classList nm) = some (some g)) := by
  have hlt : i < s.heap.length := (List.getElem?_eq_some.mp hns).1
  refine ⟨?_, ?_, ?_⟩
  · intro hc
    simp [GraphmlNamespace.setSpecificClass, GraphmlNamespace.regName,
      hns, hfun, hnm, hold, hc]
  · intro hc hsc hreg
    constructor <;>
      simp [GraphmlNamespace.setSpecificClass, GraphmlNamespace.regName,
        hns, hfun, hnm, hold, hc, hsc, hreg]
  · intro hc hsc
    constructor <;>
      simp [GraphmlNamespace.setSpecificClass, GraphmlNamespace.regName,
        hns, hfun, hnm, hold, hc, hsc,
        List.getElem?_set_eq_of_lt _ hlt, alistLookup_alistSet_self]

/-- Witness for the amended C3 at the fixture namespace `"u"` with
capability `X ↦ fPlain` and the different-constructor value `gOtherCtor`. -/
theorem c3_amended_overwrite_protection_witness :
    (scopedWithX.heap[0]? = some ⟨"u", [("X", fPlain)], true⟩ ∧
     alistLookup (NS.classList ⟨"u", [("X", fPlain)], true⟩) "X" = some fPlain ∧
     gOtherCtor.isFunction = true ∧ "X" ≠ "") ∧
    ((fPlain.ctor = gOtherCtor.ctor →
       GraphmlNamespace.setSpecificClass scopedWithX 0 (some "X") (some gOtherCtor)
         = (true, scopedWithX)) ∧
     (fPlain.ctor ≠ gOtherCtor.ctor → (true : Bool) = true →
       (alistLookup scopedWithX.namespaces "u").isSome = true →
       (GraphmlNamespace.setSpecificClass scopedWithX 0 (some "X") (some gOtherCtor)).1
         = false ∧
       (GraphmlNamespace.setSpecificClass scopedWithX 0 (some "X") (some gOtherCtor)).2.heap
         = scopedWithX.heap) ∧
     (fPlain.ctor ≠ gOtherCtor.ctor → (true : Bool) = false →
       (GraphmlNamespace.setSpecificClass scopedWithX 0 (some "X") (some gOtherCtor)).1
         = true ∧
       ((GraphmlNamespace.setSpecificClass scopedWithX 0 (some "X")
           (some gOtherCtor)).2.heap[0]?).map
         (fun n => alistLookup n.classList "X") = some (some gOtherCtor))) :=
  ⟨⟨by decide, by decide, by decide, by decide⟩,
    c3_amended_overwrite_protection scopedWithX 0 ⟨"u", [("X", fPlain)], true⟩ "X"
      fPlain gOtherCtor (by decide) (by decide) (by decide) (by decide)⟩

theorem lastIndexOfCharList_of_not_mem (l : List Char) (c : Char) (h : c ∉ l) :
    lastIndexOfCharList l c = -1 := by
  induction l with
  | nil => rfl
  | cons x rest ih =>
    simp only [List.mem_cons, not_or] at h
    simp [lastIndexOfCharList, ih h.2, Ne.symm h.1]

theorem lastIndexOfCharList_append (l1 l2 : List Char) (c : Char) (h : c ∉ l2) :
    lastIndexOfCharList (l1 ++ c :: l2) c = l1.length := by
  induction l1 with
  | nil => simp [lastIndexOfCharList, lastIndexOfCharList_of_not_mem l2 c h]
  | cons x rest ih =>
    have hne : ((rest ++ c :: l2).length : Int) ≠ -1 := by omega
    rw [List.cons_append]
    simp only [lastIndexOfCharList, ih]
    rw [if_neg (by omega)]
    simp

/-- Modelled from the wording of the amended claim: a string with its last
three characters removed. -/
def dropLastThree (s : String) : String := ⟨s.data.dropLast.dropLast.dropLast⟩

theorem dropLastThree_eq_take (s : String) :
    dropLastThree s = ⟨s.data.take (s.data.length - 3)⟩ := by
  unfold dropLastThree
  congr 1
  simp only [List.dropLast_eq_take, List.take_take, List.length_take]
  congr 1
  omega

/-- The derived lookup name of a path without separators: the whole string
minus its last three characters. -/
theorem derivedClassName_no_slash (seg : String) (hseg : ('/' : Char) ∉ seg.data)
    (hlen : 3 ≤ seg.data.length) :
    derivedClassName seg = dropLastThree seg := by
  rw [dropLastThree_eq_take]
  unfold derivedClassName jsSlice lastIndexOfChar
  rw [lastIndexOfCharList_of_not_mem _ _ hseg]
  congr 1
  have h1 : jsEffIndex seg.data.length (-1 + 1) = 0 := by
    unfold jsEffIndex
    rw [if_neg (by omega)]
    omega
  have h2 : jsEffIndex seg.data.length ((seg.data.length : Int) - 3)
      = seg.data.length - 3 := by
    unfold jsEffIndex
    rw [if_neg (by omega)]
    omega
  rw [h1, h2, List.drop_zero]

/-- The derived lookup name of `dir ++ "/" ++ seg` (with `seg` free of
separators): the final path segment minus its last three characters. -/
theorem derivedClassName_with_dir (dir seg : String) (hseg : ('/' : Char) ∉ seg.data)
    (hlen : 3 ≤ seg.data.length) :
    derivedClassName (dir ++ "/" ++ seg) = dropLastThree seg := by
  rw [dropLastThree_eq_take]
  have hdata : (dir ++ "/" ++ seg).data = dir.data ++ '/' :: seg.data := by
    simp [String.data_append]
  unfold derivedClassName jsSlice lastIndexOfChar
  rw [hdata, lastIndexOfCharList_append _ _ _ hseg]
  congr 1
  have hlen2 : (dir.data ++ '/' :: seg.data).length
      = dir.data.length + 1 + seg.data.length := by
    simp
    omega
  have h1 : jsEffIndex (dir.data ++ '/' :: seg.data).length
      ((dir.data.length : Int) + 1) = dir.data.length + 1 := by
    unfold jsEffIndex
    rw [if_neg (by omega), hlen2]
    omega
  have h2 : jsEffIndex (dir.data ++ '/' :: seg.data).length
      (((dir.data ++ '/' :: seg.data).length : Int) - 3)
      = dir.data.length + 1 + seg.data.length - 3 := by
    unfold jsEffIndex
    rw [if_neg (by rw [hlen2]; omega), hlen2]
    omega
  rw [h1, h2, List.drop_take]
  have hdrop : (dir.data ++ '/' :: seg.data).drop (dir.data.length + 1) = seg.data := by
    have : dir.data ++ '/' :: seg.data = (dir.data ++ ['/']) ++ seg.data := by simp
    rw [this]
    have hl : (dir.data ++ ['/']).length = dir.data.length + 1 := by simp
    rw [← hl, List.drop_left]
  rw [hdrop]
  congr 1
  omega

/-- On a successful fetch completion whose derived lookup name resolves in
`window` to a function whose declared name equals that lookup name, the
implementation is registered into the target namespace under exactly that
name. -/
theorem fetchComplete_registers (sys : LSys) (job : FetchJob) (rest : List FetchJob)
    (i : Nat) (ns : NS) (f : JSFun)
    (hin : sys.inFlight = job :: rest) (hjob : job.ns = some i)
    (hns : sys.doc.heap[i]? = some ns)
    (hwin : alistLookup sys.window (derivedClassName job.src) = some f)
    (hfun : f.isFunction = true) (hname : f.name = derivedClassName job.src)
    (hname0 : f.name ≠ "")
    (habs : alistLookup ns.classList (derivedClassName job.src) = none) :
    ((GraphmlNamespaceClassLoader.fetchComplete sys 0 true).doc.heap[i]?).map
      (fun n => alistLookup n.classList (derivedClassName job.src)) = some (some f) := by
  have hd : (GraphmlNamespaceClassLoader.fetchComplete sys 0 true).doc
      = (GraphmlNamespace.setSpecificClass sys.doc i none
          (alistLookup sys.window (derivedClassName job.src))).2 := by
    unfold GraphmlNamespaceClassLoader.fetchComplete
    rw [hin]
    simp [hjob, loadNextClass_doc_eq]
  rw [hd, hwin]
  have hlt : i < sys.doc.heap.length := (List.getElem?_eq_some.mp hns).1
  have habs2 : alistLookup ns.classList f.name = none := by rw [hname]; exact habs
  simp [GraphmlNamespace.setSpecificClass, GraphmlNamespace.regName, hns, hfun, hname0,
    habs2, List.getElem?_set_eq_of_lt _ hlt, ← hname, alistLookup_alistSet_self]

/-- Claim C4 (corrected): the loader does not strip "the extension,
whatever its length"; it strips exactly the last three characters of the
path (a `.js` suffix, per the source comment `.../File.js --> File`).
Amended: the capability lookup name equals the final path segment of the
resolved identifier with its last three characters removed, and when the
fetched global under that name is a function whose declared name equals
it, the implementation is registered under exactly that name.  In
particular `"a.impl"` yields `"a.i"`, not `"a"`. -/
theorem c4_amended_last_three_stripped :
    (∀ seg : String, ('/' : Char) ∉ seg.data → 3 ≤ seg.data.length →
      derivedClassName seg = dropLastThree seg) ∧
    (∀ dir seg : String, ('/' : Char) ∉ seg.data → 3 ≤ seg.data.length →
      derivedClassName (dir ++ "/" ++ seg) = dropLastThree seg) ∧
    (∀ (sys : LSys) (job : FetchJob) (rest : List FetchJob) (i : Nat) (ns : NS) (f : JSFun),
      sys.inFlight = job :: rest → job.ns = some i →
      sys.doc.heap[i]? = some ns →
      alistLookup sys.window (derivedClassName job.src) = some f →
      f.isFunction = true → f.name = derivedClassName job.src → f.name ≠ "" →
      alistLookup ns.classList (derivedClassName job.src) = none →
      ((GraphmlNamespaceClassLoader.fetchComplete sys 0 true).doc.heap[i]?).map
        (fun n => alistLookup n.classList (derivedClassName job.src)) = some (some f)) :=
  ⟨derivedClassName_no_slash, derivedClassName_with_dir, fetchComplete_registers⟩

/-- A loader state with one outstanding fetch of `path/File.js` for the
scoped namespace `"ns://demo"`, whose fetch defines the global `File`. -/
def c4Sys : LSys :=
  ⟨⟨[("ns://demo", 0)], [⟨"ns://demo", [], true⟩], []⟩,
   [("File", ⟨7, "File", 0, true⟩)], [], [⟨"path/File.js", some 0⟩], []⟩

/-- Witness for the amended C4: the derived name of `File.js` (alone and
under a directory) is `File`, and completing the fetch registers the
global `File` under that name. -/
theorem c4_amended_last_three_stripped_witness :
    ('/' : Char) ∉ "File.js".data ∧ 3 ≤ "File.js".data.length ∧
    derivedClassName "File.js" = dropLastThree "File.js" ∧
    derivedClassName ("path" ++ "/" ++ "File.js") = dropLastThree "File.js" ∧
    ((GraphmlNamespaceClassLoader.fetchComplete c4Sys 0 true).doc.heap[0]?).map
      (fun n => alistLookup n.classList
        (derivedClassName (FetchJob.src ⟨"path/File.js", some 0⟩)))
      = some (some ⟨7, "File", 0, true⟩) :=
  ⟨by decide, by decide,
    c4_amended_last_three_stripped.1 "File.js" (by decide) (by decide),
    c4_amended_last_three_stripped.2.1 "path" "File.js" (by decide) (by decide),
    c4_amended_last_three_stripped.2.2 c4Sys ⟨"path/File.js", some 0⟩ [] 0
      ⟨"ns://demo", [], true⟩ ⟨7, "File", 0, true⟩ rfl rfl (by decide) (by decide)
      (by decide) (by decide) (by decide) (by decide)⟩

/-- Claim C9 (confirmed): for a task `[A, B, C]` whose fetch of `B` fails,
the fetches of `A` and `C` are still dispatched and their registrations
attempted — the event trace is exactly dispatch, success, registration
attempt for `A`; dispatch then failure (no registration attempt) for `B`;
dispatch, success, registration attempt for `C` — the loader is a total
function (no error propagates), and the target namespace ends with no
capability under the name derived from `B`, provided it had none and the
globals fetched for `A` and `C` do not declare that name. -/
theorem c9_failed_fetch_skipped (A B C : String) (i : Nat) (doc : DocState)
    (w : List (String × JSFun)) (ns : NS)
    (hns : doc.heap[i]? = some ns)
    (hB0 : alistLookup ns.classList (derivedClassName B) = none)
    (hA : ∀ f, alistLookup w (derivedClassName A) = some f →
      f.name ≠ derivedClassName B)
    (hC : ∀ f, alistLookup w (derivedClassName C) = some f →
      f.name ≠ derivedClassName B) :
    (lrun ⟨doc, w, [], [], []⟩
        [.enqueue [A, B, C] (some i) "", .complete 0 true, .complete 0 false,
          .complete 0 true]).trace =
      [.dispatch A, .fetchDone A true, .regAttempt A, .dispatch B, .fetchDone B false,
        .dispatch C, .fetchDone C true, .regAttempt C] ∧
    ∀ ns', (lrun ⟨doc, w, [], [], []⟩
        [.enqueue [A, B, C] (some i) "", .complete 0 true, .complete 0 false,
          .complete 0 true]).doc.heap[i]? = some ns' →
      alistLookup ns'.classList (derivedClassName B) = none := by
  have hfold : jsSlice "" 0 (lastIndexOfChar "" '/' + 1) = "" := by decide
  have e : lrun ⟨doc, w, [], [], []⟩
      [.enqueue [A, B, C] (some i) "", .complete 0 true, .complete 0 false,
        .complete 0 true] =
      ⟨(GraphmlNamespace.setSpecificClass
          (GraphmlNamespace.setSpecificClass doc i none
            (alistLookup w (derivedClassName A))).2 i none
          (alistLookup w (derivedClassName C))).2, w, [], [],
        [.dispatch A, .fetchDone A true, .regAttempt A, .dispatch B, .fetchDone B false,
          .dispatch C, .fetchDone C true, .regAttempt C]⟩ := by
    simp [lrun, lstep, GraphmlNamespaceClassLoader.enqueue, GraphmlNamespaceClassLoader.load,
      GraphmlNamespaceClassLoader.loadNextClass, GraphmlNamespaceClassLoader.loader,
      GraphmlNamespaceClassLoader.fetchComplete, hfold, string_nil_append, List.eraseIdx]
  rw [e]
  obtain ⟨ns1, hns1, heq1⟩ := setSpecificClass_preserves_absent doc i ns
    (derivedClassName B) none (alistLookup w (derivedClassName A)) hns hA
  obtain ⟨ns2, hns2, heq2⟩ := setSpecificClass_preserves_absent _ i ns1
    (derivedClassName B) none (alistLookup w (derivedClassName C)) hns1 hC
  refine ⟨rfl, ?_⟩
  intro ns' h'
  rw [hns2] at h'
  cases Option.some.inj h'
  rw [heq2, heq1]
  exact hB0

/-- Document for the C9 witness: a single unscoped namespace with an empty
capability mapping. -/
def c9Doc : DocState := ⟨[], [⟨"ns://one", [], false⟩], []⟩

/-- Globals for the C9 witness: the fetches of `a.js` and `c.js` define
functions named `a` and `c`; nothing defines `b`. -/
def c9Window : List (String × JSFun) :=
  [("a", ⟨1, "a", 0, true⟩), ("c", ⟨2, "c", 0, true⟩)]

/-- Witness for C9 with the task `["a.js", "b.js", "c.js"]` whose middle
fetch fails. -/
theorem c9_failed_fetch_skipped_witness :
    (c9Doc.heap[0]? = some ⟨"ns://one", [], false⟩ ∧
     alistLookup (NS.classList ⟨"ns://one", [], false⟩) (derivedClassName "b.js") = none) ∧
    ((lrun ⟨c9Doc, c9Window, [], [], []⟩
        [.enqueue ["a.js", "b.js", "c.js"] (some 0) "", .complete 0 true,
          .complete 0 false, .complete 0 true]).trace =
      [.dispatch "a.js", .fetchDone "a.js" true, .regAttempt "a.js", .dispatch "b.js",
        .fetchDone "b.js" false, .dispatch "c.js", .fetchDone "c.js" true,
        .regAttempt "c.js"] ∧
     ∀ ns', (lrun ⟨c9Doc, c9Window, [], [], []⟩
        [.enqueue ["a.js", "b.js", "c.js"] (some 0) "", .complete 0 true,
          .complete 0 false, .complete 0 true]).doc.heap[0]? = some ns' →
       alistLookup ns'.classList (derivedClassName "b.js") = none) :=
  ⟨⟨by decide, by decide⟩,
   c9_failed_fetch_skipped "a.js" "b.js" "c.js" 0 c9Doc c9Window ⟨"ns://one", [], false⟩
     (by decide) (by decide)
     (by
       intro f hf
       have h0 : alistLookup c9Window (derivedClassName "a.js")
           = some ⟨1, "a", 0, true⟩ := by decide
       rw [h0] at hf
       cases Option.some.inj hf
       decide)
     (by
       intro f hf
       have h0 : alistLookup c9Window (derivedClassName "c.js")
           = some ⟨2, "c", 0, true⟩ := by decide
       rw [h0] at hf
       cases Option.some.inj hf
       decide)⟩

end GraphmlCanvas
